import Mathlib

/-!
Shallow embedding of `src/input.cpp` from the hdrmerge repository.

Modelling conventions:
* C++ `float`/`double` values (metadata readings, normalized pixels) are
  modelled as exact rationals `ℚ`; the embedding reasons about the real
  arithmetic the code expresses.
* APEX shutter-speed values are modelled as integers `ℤ`, so that the
  derived exposure time `2^(-apex)` is an exact rational.
* The Exiv2 metadata collaborator is modelled as a function
  `String → Option ExifData`: `none` models a file that cannot be opened.
* The RawSpeed decoding collaborator is modelled as a function
  `String → Option RawImage`: `none` models both a missing decoder and a
  `checkSupport` failure (`failOnUnknown`).
* C++ exceptions are modelled with `Except HDRError`; diagnostic warnings
  printed to `stderr` are collected in a list of strings.
* The OpenMP-parallel decode loop writes each iteration only to its own
  exposure; it is modelled by the equivalent sequential fail-fast loop.
-/

namespace HDRMerge

/-- One EXIF attribute as seen by the merge loop of `check()`:
its key and its serialized textual value (`it->toString()`);
`it->value().size()` is modelled as the length of that serialization. -/
structure ExifAttr where
  key : String
  value : String
deriving Repr, DecidableEq

/-- The metadata of one frame, as consumed by `ExposureSeries::check`entry by
entry: the enumerable attribute list plus the named accessors used by the
code.  `none` in an accessor models `it == exifData.end()` (field absent). -/
structure ExifData where
  attrs : List ExifAttr
  shutterSpeedValue : Option ℤ
  exposureTimeShown : Option ℚ
  isoSpeed : Option ℚ
  fNumber : Option ℚ
  exposureMode : Option String
  canonFocusMode : Option String
deriving Repr, DecidableEq

/-- One exposure (`struct Exposure` of the repository): a filename plus the
derived exposure time, the camera-displayed exposure time, and (after
`load()`) the normalized pixel buffer. -/
structure Exposure where
  filename : String
  exposure : ℚ := 0
  shown_exposure : ℚ := 0
  image : Option (List ℚ) := none
deriving Repr, DecidableEq

/-- The series-level metadata dictionary (`std::map<std::string, std::string>`),
modelled as an association list with unique keys. -/
abbrev Metadata := List (String × String)

/-- Lookup in the metadata dictionary (`metadata.find(key)`). -/
def findVal : Metadata → String → Option String
  | [], _ => none
  | (k, v) :: rest, key => if k = key then some v else findVal rest key

/-- Replace the stored value of a key (`metadata[key] = v` on a present key). -/
def setKey : Metadata → String → String → Metadata
  | [], key, v => [(key, v)]
  | (k, v') :: rest, key, v =>
      if k = key then (key, v) :: rest else (k, v') :: setKey rest key v

/-- The per-attribute metadata merge of `check()` (input.cpp lines 76-89):
skip attributes whose serialized value exceeds 100 characters; store a new
key directly; leave an identical value alone; append `"; " ++ value` to a
differing stored value. -/
def mergeOne (m : Metadata) (a : ExifAttr) : Metadata :=
  if a.value.length > 100 then m
  else
    match findVal m a.key with
    | some current =>
        if a.value = current then m
        else setKey m a.key (current ++ "; " ++ a.value)
    | none => m ++ [(a.key, a.value)]

/-- Merge all attributes of one frame, in enumeration order. -/
def mergeAll (m : Metadata) (attrs : List ExifAttr) : Metadata :=
  attrs.foldl mergeOne m

/-- The error taxonomy of the fatal `std::runtime_error` throws in input.cpp. -/
inductive HDRError where
  | decodeError (filename : String)
  | missingField (filename : String) (field : String)
  | inconsistentSettings (filename : String) (field : String)
  | duplicateExposure (t : ℚ)
  | unsupportedFormat (message : String)
deriving Repr, DecidableEq

/-- The state threaded through the frame loop of `check()`: the reference
ISO and aperture (both initialized to `-1`), the metadata dictionary, the
processed exposures, and the accumulated non-fatal warnings. -/
structure CheckState where
  isoSpeed : ℚ
  aperture : ℚ
  metadata : Metadata
  exposures : List Exposure
  warnings : List String
deriving Repr, DecidableEq

def initState (md : Metadata) : CheckState :=
  { isoSpeed := -1, aperture := -1, metadata := md, exposures := [], warnings := [] }

/-- Processing of one frame inside the loop of `ExposureSeries::check`
(input.cpp lines 65-132).  `first` models `exposure == 0`. -/
def checkFrame (readMeta : String → Option ExifData) (first : Bool)
    (st : CheckState) (exp : Exposure) : Except HDRError CheckState :=
  match readMeta exp.filename with
  | none => .error (.decodeError exp.filename)
  | some exif =>
    let md := mergeAll st.metadata exif.attrs
    match exif.shutterSpeedValue with
    | none => .error (.missingField exp.filename "exposure time")
    | some apex =>
      let expTime : ℚ := (2 : ℚ) ^ (-apex)
      match exif.exposureTimeShown with
      | none => .error (.missingField exp.filename "exposure time")
      | some shown =>
        match exif.isoSpeed with
        | none => .error (.missingField exp.filename "ISO speed")
        | some iso =>
          if first = false ∧ st.isoSpeed ≠ iso then
            .error (.inconsistentSettings exp.filename "ISO speed")
          else
            let iso' := if first then iso else st.isoSpeed
            match exif.fNumber with
            | none => .error (.missingField exp.filename "aperture")
            | some fn =>
              if first = false ∧ st.aperture ≠ fn then
                .error (.inconsistentSettings exp.filename "aperture")
              else
                let ap' := if first then fn else st.aperture
                match exif.exposureMode with
                | none => .error (.missingField exp.filename "exposure mode")
                | some mode =>
                  let w1 := if mode ≠ "Manual" then
                      st.warnings ++ ["not manual exposure: " ++ exp.filename]
                    else st.warnings
                  let w2 := match exif.canonFocusMode with
                    | some fm =>
                        if fm ≠ "Manual focus" then
                          w1 ++ ["not manual focus: " ++ exp.filename]
                        else w1
                    | none => w1
                  .ok { isoSpeed := iso', aperture := ap', metadata := md,
                        exposures := st.exposures ++
                          [{ exp with exposure := expTime, shown_exposure := shown }],
                        warnings := w2 }

/-- The frame loop of `check()`: frames in discovery order, the first
carrying `exposure == 0`. -/
def checkLoop (readMeta : String → Option ExifData) :
    Bool → CheckState → List Exposure → Except HDRError CheckState
  | _, st, [] => .ok st
  | first, st, e :: rest =>
    match checkFrame readMeta first st e with
    | .error err => .error err
    | .ok st' => checkLoop readMeta false st' rest

/-- The sort comparator of `check()` (`a.exposure < b.exposure`), closed
under ties so that the sort is total. -/
def expLE (a b : Exposure) : Prop := a.exposure ≤ b.exposure

instance : DecidableRel expLE := fun a b =>
  inferInstanceAs (Decidable (a.exposure ≤ b.exposure))

instance : IsTotal Exposure expLE := ⟨fun a b => le_total a.exposure b.exposure⟩

instance : IsTrans Exposure expLE := ⟨fun _ _ _ h h' => le_trans h h'⟩

/-- The post-sort duplicate scan (`std::adjacent_find` with
`a.exposure == b.exposure`), returning the first element of the first
matching adjacent pair. -/
def findAdjacentDup : List Exposure → Option Exposure
  | a :: b :: rest =>
      if a.exposure = b.exposure then some a else findAdjacentDup (b :: rest)
  | _ => none

/-- The series-level `ExposureSeries` record. -/
structure ExposureSeries where
  exposures : List Exposure
  metadata : Metadata := []
  width : Nat := 0
  height : Nat := 0
  saturation : ℚ := 0
deriving Repr, DecidableEq

/-- The raw sample type reported by the decoder (`getDataType()`). -/
inductive RawDataType where
  | ushort16
  | other
deriving Repr, DecidableEq

/-- The decoded sensor image as input.cpp consumes it: subsampling factors,
sample type, color-filter-array flag, logical dimensions, row pitch (already
divided by `sizeof(uint16_t)`), calibration black/white levels, and the raw
sample at each linear index of the decoder's buffer. -/
structure RawImage where
  subsamplingX : Int
  subsamplingY : Int
  dataType : RawDataType
  isCFA : Bool
  width : Nat
  height : Nat
  pitch : Nat
  blackLevel : ℤ
  whitePoint : ℤ
  data : Nat → ℤ

/-- The normalization loop of `load()` (input.cpp lines 217-224): a fresh
`width*height` row-major buffer where the pixel at row `y`, column `x` is
`(data[y*pitch + x] - blackLevel) * (1 / (whitePoint - blackLevel))`. -/
def normalize (raw : RawImage) : List ℚ :=
  (List.range raw.height).flatMap (fun y =>
    (List.range raw.width).map (fun x =>
      ((raw.data (y * raw.pitch + x) - raw.blackLevel : ℤ) : ℚ) *
        (1 / ((raw.whitePoint : ℚ) - (raw.blackLevel : ℚ)))))

/-- One iteration of the decode loop of `ExposureSeries::load`
(input.cpp lines 177-226): decode the file, reject unsupported formats in
the order the code checks them, then attach the normalized buffer. -/
def loadFrame (decodeFile : String → Option RawImage) (e : Exposure) :
    Except HDRError (RawImage × Exposure) :=
  match decodeFile e.filename with
  | none => .error (.decodeError e.filename)
  | some raw =>
    if raw.subsamplingX ≠ 1 ∨ raw.subsamplingY ≠ 1 then
      .error (.unsupportedFormat "Subsampled RAW images are currently not supported!")
    else if raw.dataType ≠ .ushort16 then
      .error (.unsupportedFormat "Only RAW data in 16-bit format is currently supported!")
    else if raw.isCFA = false then
      .error (.unsupportedFormat "Only sensors with a color filter array are currently supported!")
    else .ok (raw, { e with image := some (normalize raw) })

/-- The decode loop over all exposures.  The OpenMP-parallel loop of the
source writes each iteration only to its own exposure and any failure is
fatal to the whole batch; it is modelled by the equivalent sequential loop. -/
def loadLoop (decodeFile : String → Option RawImage) :
    List Exposure → Except HDRError (List (RawImage × Exposure))
  | [] => .ok []
  | e :: rest =>
    match loadFrame decodeFile e with
    | .error err => .error err
    | .ok p =>
      match loadLoop decodeFile rest with
      | .error err => .error err
      | .ok ps => .ok (p :: ps)

/-- Ascending sort of rational pixel values (models the full-sort semantics
of `std::nth_element`: after the call the element at the partition index is
the one a complete ascending sort would place there). -/
def sortQ (l : List ℚ) : List ℚ :=
  List.insertionSort (fun a b => a ≤ b) l

/-- The saturation computation of `load()` (input.cpp lines 240-245): copy
`npix` values of a frame's normalized buffer (`memcpy`), compute
`percentile = (size_t)(npix*0.999)` and run `nth_element` at that index:
the result is the element a full ascending sort would place there. -/
def satOf (image : List ℚ) (npix : Nat) : ℚ :=
  (sortQ (image.take npix)).getD (npix * 999 / 1000) 0

/-- `ExposureSeries::load` (input.cpp lines 169-249): decode and normalize
every exposure, record the series dimensions from the first decoded frame,
then compute the saturation threshold as the `floor(npix*0.999)`-rank order
statistic of a copy of the last exposure's normalized buffer.
Indexing `exposures[size()-1]` on an empty series is undefined behaviour in
the source; the model makes the empty case an error. -/
def ExposureSeries.load (decodeFile : String → Option RawImage)
    (es : ExposureSeries) : Except HDRError ExposureSeries :=
  match loadLoop decodeFile es.exposures with
  | .error err => .error err
  | .ok [] => .error (.decodeError "empty series")
  | .ok ((raw0, e0) :: rest) =>
    let w := raw0.width
    let h := raw0.height
    let loaded := (((raw0, e0) :: rest).map Prod.snd)
    let npix := w * h
    let lastImage := match loaded.getLast? with
      | some e => e.image.getD []
      | none => []
    let sat := satOf lastImage npix
    .ok { es with exposures := loaded, width := w, height := h, saturation := sat }

/-- The filename template collaborator of `ExposureSeries::add`: `subst i`
models `snprintf(buf, fmt, i)` and `hasPercent` models
`strchr(fmt, '%') != NULL`; `substConst` records the C `snprintf` fact that
a format string without a conversion ignores its argument. -/
structure FmtString where
  subst : Nat → String
  hasPercent : Bool
  substConst : hasPercent = false → ∀ m n : Nat, subst m = subst n

/-- The zero-based discovery loop of `add()` (input.cpp lines 32-45),
with explicit fuel for the unbounded `for`: stop at the first missing file,
and stop before appending at index 1 when the template has no placeholder. -/
def scanZero (fileExists : String → Bool) (fmt : FmtString) :
    Nat → Nat → List Exposure
  | 0, _ => []
  | fuel + 1, i =>
    let filename := fmt.subst i
    if fileExists filename = false then []
    else if i = 1 ∧ fmt.hasPercent = false then []
    else { filename := filename } :: scanZero fileExists fmt fuel (i + 1)

/-- The retry loop of `add()` (input.cpp lines 49-58): plain scan from a
start index, stopping at the first missing file. -/
def scanPlain (fileExists : String → Bool) (fmt : FmtString) :
    Nat → Nat → List Exposure
  | 0, _ => []
  | fuel + 1, i =>
    let filename := fmt.subst i
    if fileExists filename = false then []
    else { filename := filename } :: scanPlain fileExists fmt fuel (i + 1)

/-- `ExposureSeries::add` (input.cpp lines 29-60): run the zero-based scan;
if and only if it appended nothing, rescan starting at index 1. -/
def ExposureSeries.add (fileExists : String → Bool) (fmt : FmtString)
    (fuel : Nat) (es : ExposureSeries) : ExposureSeries :=
  let first := scanZero fileExists fmt fuel 0
  if first.isEmpty then
    { es with exposures := es.exposures ++ scanPlain fileExists fmt fuel 1 }
  else
    { es with exposures := es.exposures ++ first }

/-- `ExposureSeries::check` (input.cpp lines 62-167): run the frame loop,
sort ascending by derived exposure time, fail on an adjacent duplicate,
otherwise return the updated series and the collected warnings. -/
def ExposureSeries.check (readMeta : String → Option ExifData)
    (es : ExposureSeries) : Except HDRError (ExposureSeries × List String) :=
  match checkLoop readMeta true (initState es.metadata) es.exposures with
  | .error err => .error err
  | .ok st =>
    let sorted := List.insertionSort expLE st.exposures
    match findAdjacentDup sorted with
    | some e => .error (.duplicateExposure e.exposure)
    | none => .ok ({ es with exposures := sorted, metadata := st.metadata }, st.warnings)

/-! ## Helper lemmas about the metadata dictionary -/

lemma findVal_setKey (m : Metadata) (key v : String) :
    findVal (setKey m key v) key = some v := by
  induction m with
  | nil => simp [setKey, findVal]
  | cons p rest ih =>
    obtain ⟨k, v'⟩ := p
    by_cases hk : k = key
    · simp [setKey, hk, findVal]
    · simp [setKey, hk, findVal, ih]

lemma findVal_append_singleton (m : Metadata) (key v : String)
    (h : findVal m key = none) : findVal (m ++ [(key, v)]) key = some v := by
  induction m with
  | nil => simp [findVal]
  | cons p rest ih =>
    obtain ⟨k, v'⟩ := p
    by_cases hk : k = key
    · simp [findVal, hk] at h
    · simp [findVal, hk] at h ⊢
      exact ih h

/-- C5: the metadata merge of `check()` stores a new key's value directly,
leaves an identical stored value unchanged, replaces a differing stored
value by `stored ++ "; " ++ new`, and skips any attribute whose serialized
textual value exceeds 100 characters. -/
theorem mergeOne_spec (m : Metadata) (a : ExifAttr) :
    (a.value.length > 100 → mergeOne m a = m)
    ∧ (a.value.length ≤ 100 → findVal m a.key = none →
        findVal (mergeOne m a) a.key = some a.value)
    ∧ (a.value.length ≤ 100 → findVal m a.key = some a.value → mergeOne m a = m)
    ∧ (∀ c, a.value.length ≤ 100 → findVal m a.key = some c → c ≠ a.value →
        findVal (mergeOne m a) a.key = some (c ++ "; " ++ a.value)) := by
  refine ⟨?_, ?_, ?_, ?_⟩
  · intro hlen
    simp [mergeOne, hlen]
  · intro hlen hnone
    simp [mergeOne, Nat.not_lt.mpr hlen, hnone]
    exact findVal_append_singleton m a.key a.value hnone
  · intro hlen hsome
    simp [mergeOne, Nat.not_lt.mpr hlen, hsome]
  · intro c hlen hsome hne
    have hvc : ¬(a.value = c) := fun h => hne h.symm
    simp [mergeOne, Nat.not_lt.mpr hlen, hsome, hvc]
    exact findVal_setKey m a.key (c ++ "; " ++ a.value)

/-- Witness for C5 at concrete inputs: a differing second value for key
`"k"` is appended after `"; "`, and an oversized attribute is skipped. -/
theorem mergeOne_spec_witness :
    (("y" : String).length ≤ 100
      ∧ findVal [("k", "x")] "k" = some "x"
      ∧ ("x" : String) ≠ "y")
    ∧ findVal (mergeOne [("k", "x")] ⟨"k", "y"⟩) "k" = some ("x" ++ "; " ++ "y") :=
  ⟨⟨by decide, by decide, by decide⟩,
    (mergeOne_spec [("k", "x")] ⟨"k", "y"⟩).2.2.2 "x" (by decide) (by decide) (by decide)⟩

/-! ## Helper lemmas about the normalization double loop -/

lemma flatMapRange_length (w : Nat) (f : Nat → Nat → ℚ) :
    ∀ (n a : Nat),
      ((List.range' a n).flatMap (fun r => (List.range w).map (f r))).length = n * w := by
  intro n
  induction n with
  | zero => intro a; simp
  | succ n ih =>
    intro a
    have hr : List.range' a (n + 1) = a :: List.range' (a + 1) n := by simp [List.range']
    rw [hr, List.flatMap_cons, List.length_append, ih (a + 1)]
    simp [Nat.succ_mul, Nat.add_comm]

lemma flatMapRange_getD (w : Nat) (f : Nat → Nat → ℚ) :
    ∀ (n a y x : Nat), y < n → x < w →
      ((List.range' a n).flatMap (fun r => (List.range w).map (f r))).getD (y * w + x) 0
        = f (a + y) x := by
  intro n
  induction n with
  | zero => intro a y x hy _; exact absurd hy (Nat.not_lt_zero y)
  | succ n ih =>
    intro a y x hy hx
    have hr : List.range' a (n + 1) = a :: List.range' (a + 1) n := by simp [List.range']
    rw [hr, List.flatMap_cons, List.getD_eq_getElem?_getD, List.getElem?_append]
    cases y with
    | zero =>
      have hlen : 0 * w + x < ((List.range w).map (f a)).length := by
        simpa using by omega
      rw [if_pos hlen]
      simp [List.getElem?_map, List.getElem?_range hx]
    | succ y' =>
      have hmul : (y' + 1) * w = y' * w + w := Nat.succ_mul y' w
      have hlen : ¬((y' + 1) * w + x < ((List.range w).map (f a)).length) := by
        simp only [List.length_map, List.length_range]
        omega
      rw [if_neg hlen]
      have hidx : (y' + 1) * w + x - ((List.range w).map (f a)).length = y' * w + x := by
        simp only [List.length_map, List.length_range]
        omega
      rw [hidx, ← List.getD_eq_getElem?_getD,
        ih (a + 1) y' x (Nat.lt_of_succ_lt_succ hy) hx]
      congr 1
      omega

/-- Inversion of a successful `loadFrame`: the decoder produced the raw
image and the exposure now owns its normalized buffer. -/
lemma loadFrame_ok_elim {d : String → Option RawImage} {e : Exposure}
    {raw : RawImage} {e' : Exposure} (h : loadFrame d e = .ok (raw, e')) :
    d e.filename = some raw ∧ e' = { e with image := some (normalize raw) } := by
  unfold loadFrame at h
  cases hd : d e.filename with
  | none => rw [hd] at h; exact absurd h (by simp)
  | some r =>
    rw [hd] at h
    dsimp only at h
    split_ifs at h with h1 h2 h3
    all_goals simp only [Except.ok.injEq, Prod.mk.injEq, reduceCtorEq] at h
    obtain ⟨rfl, rfl⟩ := h
    exact ⟨rfl, rfl⟩

/-- C2: the normalized buffer of a decoded frame has exactly
`width * height` entries; the entry at row `y`, column `x` equals
`(raw[y*pitch + x] - blackLevel) / (whitePoint - blackLevel)` (the decoder's
row stride addresses the source, not the destination); and a successful
`loadFrame` stores exactly this buffer in the exposure. -/
theorem load_normalize_pixels (raw : RawImage) :
    (normalize raw).length = raw.width * raw.height
    ∧ (∀ y x, y < raw.height → x < raw.width →
        (normalize raw).getD (y * raw.width + x) 0 =
          (((raw.data (y * raw.pitch + x) : ℤ) : ℚ) - ((raw.blackLevel : ℤ) : ℚ)) /
            (((raw.whitePoint : ℤ) : ℚ) - ((raw.blackLevel : ℤ) : ℚ)))
    ∧ (∀ (decodeFile : String → Option RawImage) (e : Exposure) raw' e',
        loadFrame decodeFile e = .ok (raw', e') →
        e'.image = some (normalize raw')) := by
  refine ⟨?_, ?_, ?_⟩
  · rw [normalize, List.range_eq_range' raw.height, flatMapRange_length]
    exact Nat.mul_comm raw.height raw.width
  · intro y x hy hx
    rw [normalize, List.range_eq_range' raw.height,
      flatMapRange_getD raw.width _ raw.height 0 y x hy hx]
    rw [Nat.zero_add, mul_one_div]
    push_cast
    ring
  · intro decodeFile e raw' e' h
    exact ((loadFrame_ok_elim h).2 ▸ rfl)

/-- A synthetic one-pixel decoded frame with black level 100, white point
4100 and raw sample 2100, for the normalization witness. -/
def rawFixture : RawImage :=
  { subsamplingX := 1, subsamplingY := 1, dataType := .ushort16, isCFA := true,
    width := 1, height := 1, pitch := 1, blackLevel := 100, whitePoint := 4100,
    data := fun _ => 2100 }

/-- Witness for C2: on the fixture, pixel (0,0) normalizes to exactly 1/2. -/
theorem load_normalize_pixels_witness :
    (0 < rawFixture.height ∧ 0 < rawFixture.width)
    ∧ (normalize rawFixture).getD (0 * rawFixture.width + 0) 0 =
        (((rawFixture.data (0 * rawFixture.pitch + 0) : ℤ) : ℚ) -
            ((rawFixture.blackLevel : ℤ) : ℚ)) /
          (((rawFixture.whitePoint : ℤ) : ℚ) - ((rawFixture.blackLevel : ℤ) : ℚ))
    ∧ (((2100 : ℤ) : ℚ) - ((100 : ℤ) : ℚ)) / (((4100 : ℤ) : ℚ) - ((100 : ℤ) : ℚ))
        = 1 / 2 :=
  ⟨⟨by decide, by decide⟩,
    (load_normalize_pixels rawFixture).2.1 0 0 (by decide) (by decide),
    by norm_num⟩

/-- A failing frame anywhere in the list makes the whole decode loop fail. -/
lemma loadLoop_error_of_mem (d : String → Option RawImage) :
    ∀ (l : List Exposure) (e : Exposure) (err : HDRError), e ∈ l →
      loadFrame d e = .error err → ∃ err', loadLoop d l = .error err' := by
  intro l
  induction l with
  | nil => intro e err hmem; exact absurd hmem (List.not_mem_nil e)
  | cons a rest ih =>
    intro e err hmem hf
    cases ha : loadFrame d a with
    | error err0 => exact ⟨err0, by simp [loadLoop, ha]⟩
    | ok p =>
      rcases List.mem_cons.mp hmem with rfl | hmem'
      · rw [hf] at ha; exact absurd ha (by simp)
      · obtain ⟨err', hloop⟩ := ih e err hmem' hf
        exact ⟨err', by simp [loadLoop, ha, hloop]⟩

/-- C7: in `load()`, subsampling other than `(1,1)`, a sample type other
than 16-bit unsigned, and a missing color-filter array each independently
produce the corresponding fatal `UnsupportedFormatError`, and any failing
frame aborts the whole batch. -/
theorem load_format_rejection (decodeFile : String → Option RawImage)
    (e : Exposure) (raw : RawImage) (hd : decodeFile e.filename = some raw) :
    ((raw.subsamplingX ≠ 1 ∨ raw.subsamplingY ≠ 1) →
        loadFrame decodeFile e = .error (.unsupportedFormat
          "Subsampled RAW images are currently not supported!"))
    ∧ (raw.subsamplingX = 1 → raw.subsamplingY = 1 →
        raw.dataType ≠ .ushort16 →
        loadFrame decodeFile e = .error (.unsupportedFormat
          "Only RAW data in 16-bit format is currently supported!"))
    ∧ (raw.subsamplingX = 1 → raw.subsamplingY = 1 →
        raw.dataType = .ushort16 → raw.isCFA = false →
        loadFrame decodeFile e = .error (.unsupportedFormat
          "Only sensors with a color filter array are currently supported!"))
    ∧ (∀ (es : ExposureSeries) (err : HDRError), e ∈ es.exposures →
        loadFrame decodeFile e = .error err →
        ∃ err', es.load decodeFile = .error err') := by
  refine ⟨?_, ?_, ?_, ?_⟩
  · intro hsub
    unfold loadFrame
    rw [hd]
    dsimp only
    rw [if_pos hsub]
  · intro hx hy htype
    unfold loadFrame
    rw [hd]
    dsimp only
    rw [if_neg (by simp [hx, hy]), if_pos htype]
  · intro hx hy htype hcfa
    unfold loadFrame
    rw [hd]
    dsimp only
    rw [if_neg (by simp [hx, hy]), if_neg (by simp [htype]), if_pos hcfa]
  · intro es err hmem hf
    obtain ⟨err', hloop⟩ := loadLoop_error_of_mem decodeFile es.exposures e err hmem hf
    refine ⟨err', ?_⟩
    unfold ExposureSeries.load
    rw [hloop]

/-- Defective fixtures: subsampled, 8-bit, and CFA-less variants. -/
def rawSubsampled : RawImage := { rawFixture with subsamplingX := 2 }

def rawNot16 : RawImage := { rawFixture with dataType := .other }

def rawNoCFA : RawImage := { rawFixture with isCFA := false }

/-- A decoder fixture serving one defective raw image per filename. -/
def decodeFixture : String → Option RawImage := fun s =>
  if s = "a" then some rawSubsampled
  else if s = "b" then some rawNot16
  else if s = "c" then some rawNoCFA
  else none

/-- Witness for C7: each defect alone triggers its own rejection, and the
defective frame makes the whole `load()` fail. -/
theorem load_format_rejection_witness :
    (rawSubsampled.subsamplingX ≠ 1 ∨ rawSubsampled.subsamplingY ≠ 1)
    ∧ loadFrame decodeFixture { filename := "a" } = .error (.unsupportedFormat
        "Subsampled RAW images are currently not supported!")
    ∧ loadFrame decodeFixture { filename := "b" } = .error (.unsupportedFormat
        "Only RAW data in 16-bit format is currently supported!")
    ∧ loadFrame decodeFixture { filename := "c" } = .error (.unsupportedFormat
        "Only sensors with a color filter array are currently supported!")
    ∧ ∃ err', (ExposureSeries.load decodeFixture
        { exposures := [{ filename := "a" }] }) = .error err' := by
  have h1 := load_format_rejection decodeFixture { filename := "a" } rawSubsampled rfl
  have h2 := load_format_rejection decodeFixture { filename := "b" } rawNot16 rfl
  have h3 := load_format_rejection decodeFixture { filename := "c" } rawNoCFA rfl
  have ha := h1.1 (by decide)
  refine ⟨by decide, ha, h2.2.1 (by decide) (by decide) (by decide),
    h3.2.2.1 (by decide) (by decide) (by decide) (by decide), ?_⟩
  exact h1.2.2.2 { exposures := [{ filename := "a" }] }
    (.unsupportedFormat "Subsampled RAW images are currently not supported!")
    (by simp) ha

/-! ## Helper lemmas about one frame of `check()` -/

/-- A frame error aborts the whole frame loop immediately. -/
lemma checkLoop_cons_error {readMeta : String → Option ExifData} {first : Bool}
    {st : CheckState} {e : Exposure} {err : HDRError} (rest : List Exposure)
    (h : checkFrame readMeta first st e = .error err) :
    checkLoop readMeta first st (e :: rest) = .error err := by
  simp [checkLoop, h]

/-- The accumulated warnings of one successfully checked frame. -/
def frameWarnings (st : CheckState) (e : Exposure) (exif : ExifData)
    (mode : String) : List String :=
  let w1 := if mode ≠ "Manual" then
      st.warnings ++ ["not manual exposure: " ++ e.filename]
    else st.warnings
  match exif.canonFocusMode with
  | some fm => if fm ≠ "Manual focus" then
      w1 ++ ["not manual focus: " ++ e.filename]
    else w1
  | none => w1

/-- Reduction of `checkFrame` when every extraction succeeds and the
cross-frame settings agree. -/
lemma checkFrame_ok (readMeta : String → Option ExifData) (first : Bool)
    (st : CheckState) (e : Exposure) (exif : ExifData) (apex : ℤ)
    (shown iso fn : ℚ) (mode : String)
    (hm : readMeta e.filename = some exif)
    (hs : exif.shutterSpeedValue = some apex)
    (hshown : exif.exposureTimeShown = some shown)
    (hiso : exif.isoSpeed = some iso)
    (hfn : exif.fNumber = some fn)
    (hmode : exif.exposureMode = some mode)
    (hciso : first = false → st.isoSpeed = iso)
    (hcfn : first = false → st.aperture = fn) :
    checkFrame readMeta first st e = .ok
      { isoSpeed := if first then iso else st.isoSpeed,
        aperture := if first then fn else st.aperture,
        metadata := mergeAll st.metadata exif.attrs,
        exposures := st.exposures ++
          [{ e with exposure := (2 : ℚ) ^ (-apex), shown_exposure := shown }],
        warnings := frameWarnings st e exif mode } := by
  have hniso : ¬(first = false ∧ st.isoSpeed ≠ iso) := by
    cases first with
    | false => rintro ⟨-, h2⟩; exact h2 (hciso rfl)
    | true => rintro ⟨h1, -⟩; exact Bool.noConfusion h1
  have hnfn : ¬(first = false ∧ st.aperture ≠ fn) := by
    cases first with
    | false => rintro ⟨-, h2⟩; exact h2 (hcfn rfl)
    | true => rintro ⟨h1, -⟩; exact Bool.noConfusion h1
  unfold checkFrame
  rw [hm]
  dsimp only
  rw [hs]
  dsimp only
  rw [hshown]
  dsimp only
  rw [hiso]
  dsimp only
  rw [if_neg hniso, hfn]
  dsimp only
  rw [if_neg hnfn, hmode]
  dsimp only
  rfl

/-- Inversion of a successful `checkFrame`. -/
lemma checkFrame_ok_elim {readMeta : String → Option ExifData} {first : Bool}
    {st : CheckState} {e : Exposure} {st' : CheckState}
    (h : checkFrame readMeta first st e = .ok st') :
    ∃ exif apex shown iso fn mode,
      readMeta e.filename = some exif
      ∧ exif.shutterSpeedValue = some apex
      ∧ exif.exposureTimeShown = some shown
      ∧ exif.isoSpeed = some iso
      ∧ exif.fNumber = some fn
      ∧ exif.exposureMode = some mode
      ∧ st'.isoSpeed = (if first then iso else st.isoSpeed)
      ∧ st'.aperture = (if first then fn else st.aperture)
      ∧ st'.metadata = mergeAll st.metadata exif.attrs
      ∧ st'.exposures = st.exposures ++
          [{ e with exposure := (2 : ℚ) ^ (-apex), shown_exposure := shown }]
      ∧ (first = false → st.isoSpeed = iso ∧ st.aperture = fn) := by
  unfold checkFrame at h
  cases hm : readMeta e.filename with
  | none => rw [hm] at h; exact absurd h (by simp)
  | some exif =>
    rw [hm] at h
    dsimp only at h
    cases hs : exif.shutterSpeedValue with
    | none => rw [hs] at h; exact absurd h (by simp)
    | some apex =>
      rw [hs] at h
      dsimp only at h
      cases hshown : exif.exposureTimeShown with
      | none => rw [hshown] at h; exact absurd h (by simp)
      | some shown =>
        rw [hshown] at h
        dsimp only at h
        cases hiso : exif.isoSpeed with
        | none => rw [hiso] at h; exact absurd h (by simp)
        | some iso =>
          rw [hiso] at h
          dsimp only at h
          by_cases hc1 : first = false ∧ st.isoSpeed ≠ iso
          · rw [if_pos hc1] at h; exact absurd h (by simp)
          · rw [if_neg hc1] at h
            cases hfn : exif.fNumber with
            | none => rw [hfn] at h; exact absurd h (by simp)
            | some fn =>
              rw [hfn] at h
              dsimp only at h
              by_cases hc2 : first = false ∧ st.aperture ≠ fn
              · rw [if_pos hc2] at h; exact absurd h (by simp)
              · rw [if_neg hc2] at h
                cases hmode : exif.exposureMode with
                | none => rw [hmode] at h; exact absurd h (by simp)
                | some mode =>
                  rw [hmode] at h
                  dsimp only at h
                  simp only [Except.ok.injEq] at h
                  subst h
                  refine ⟨exif, apex, shown, iso, fn, mode, rfl, hs, hshown, hiso,
                    hfn, hmode, rfl, rfl, rfl, rfl, ?_⟩
                  intro hfirst
                  constructor
                  · by_contra hne
                    exact hc1 ⟨hfirst, hne⟩
                  · by_contra hne
                    exact hc2 ⟨hfirst, hne⟩

/-- Missing shutter-speed attribute: fatal. -/
lemma checkFrame_missing_shutter {readMeta : String → Option ExifData}
    {first : Bool} {st : CheckState} {e : Exposure} {exif : ExifData}
    (hm : readMeta e.filename = some exif)
    (hs : exif.shutterSpeedValue = none) :
    checkFrame readMeta first st e = .error (.missingField e.filename "exposure time") := by
  unfold checkFrame
  rw [hm]
  dsimp only
  rw [hs]

/-- Missing exposure-mode attribute: fatal, reached once every earlier
extraction succeeded and the settings agree. -/
lemma checkFrame_missing_mode {readMeta : String → Option ExifData}
    {first : Bool} {st : CheckState} {e : Exposure} {exif : ExifData}
    {apex : ℤ} {shown iso fn : ℚ}
    (hm : readMeta e.filename = some exif)
    (hs : exif.shutterSpeedValue = some apex)
    (hshown : exif.exposureTimeShown = some shown)
    (hiso : exif.isoSpeed = some iso)
    (hfn : exif.fNumber = some fn)
    (hciso : first = false → st.isoSpeed = iso)
    (hcfn : first = false → st.aperture = fn)
    (hmode : exif.exposureMode = none) :
    checkFrame readMeta first st e = .error (.missingField e.filename "exposure mode") := by
  have hniso : ¬(first = false ∧ st.isoSpeed ≠ iso) := by
    cases first with
    | false => rintro ⟨-, h2⟩; exact h2 (hciso rfl)
    | true => rintro ⟨h1, -⟩; exact Bool.noConfusion h1
  have hnfn : ¬(first = false ∧ st.aperture ≠ fn) := by
    cases first with
    | false => rintro ⟨-, h2⟩; exact h2 (hcfn rfl)
    | true => rintro ⟨h1, -⟩; exact Bool.noConfusion h1
  unfold checkFrame
  rw [hm]
  dsimp only
  rw [hs]
  dsimp only
  rw [hshown]
  dsimp only
  rw [hiso]
  dsimp only
  rw [if_neg hniso, hfn]
  dsimp only
  rw [if_neg hnfn, hmode]

/-- A subsequent frame whose ISO differs from the reference: fatal. -/
lemma checkFrame_iso_mismatch {readMeta : String → Option ExifData}
    {st : CheckState} {e : Exposure} {exif : ExifData}
    {apex : ℤ} {shown v : ℚ}
    (hm : readMeta e.filename = some exif)
    (hs : exif.shutterSpeedValue = some apex)
    (hshown : exif.exposureTimeShown = some shown)
    (hiso : exif.isoSpeed = some v)
    (hne : st.isoSpeed ≠ v) :
    checkFrame readMeta false st e = .error (.inconsistentSettings e.filename "ISO speed") := by
  unfold checkFrame
  rw [hm]
  dsimp only
  rw [hs]
  dsimp only
  rw [hshown]
  dsimp only
  rw [hiso]
  dsimp only
  rw [if_pos ⟨rfl, hne⟩]

/-- A subsequent frame whose f-number differs from the reference: fatal. -/
lemma checkFrame_fn_mismatch {readMeta : String → Option ExifData}
    {st : CheckState} {e : Exposure} {exif : ExifData}
    {apex : ℤ} {shown v w : ℚ}
    (hm : readMeta e.filename = some exif)
    (hs : exif.shutterSpeedValue = some apex)
    (hshown : exif.exposureTimeShown = some shown)
    (hiso : exif.isoSpeed = some v)
    (heq : st.isoSpeed = v)
    (hfn : exif.fNumber = some w)
    (hne : st.aperture ≠ w) :
    checkFrame readMeta false st e = .error (.inconsistentSettings e.filename "aperture") := by
  have hniso : ¬((false : Bool) = false ∧ st.isoSpeed ≠ v) := by
    rintro ⟨-, h2⟩; exact h2 heq
  unfold checkFrame
  rw [hm]
  dsimp only
  rw [hs]
  dsimp only
  rw [hshown]
  dsimp only
  rw [hiso]
  dsimp only
  rw [if_neg hniso, hfn]
  dsimp only
  rw [if_pos ⟨rfl, hne⟩]

/-- The non-manual-exposure warning is recorded among the frame warnings. -/
lemma mem_frameWarnings (st : CheckState) (e : Exposure) (exif : ExifData)
    {mode : String} (hmode : mode ≠ "Manual") :
    ("not manual exposure: " ++ e.filename) ∈ frameWarnings st e exif mode := by
  unfold frameWarnings
  cases exif.canonFocusMode with
  | none => simp [hmode]
  | some fm =>
    by_cases hf : fm ≠ "Manual focus" <;> simp [hmode, hf]

/-- C6: `check()` derives `exposureTime = 2^(-apex)` from the APEX
shutter-speed attribute, and its absence is fatal to the whole series. -/
theorem check_exposure_time_formula (readMeta : String → Option ExifData)
    (first : Bool) (st : CheckState) (e : Exposure) :
    (∀ exif, readMeta e.filename = some exif → exif.shutterSpeedValue = none →
        checkFrame readMeta first st e = .error (.missingField e.filename "exposure time"))
    ∧ (∀ st', checkFrame readMeta first st e = .ok st' →
        ∃ exif apex shown, readMeta e.filename = some exif
          ∧ exif.shutterSpeedValue = some apex
          ∧ st'.exposures = st.exposures ++
              [{ e with exposure := (2 : ℚ) ^ (-apex), shown_exposure := shown }])
    ∧ (∀ (rest : List Exposure) err, checkFrame readMeta first st e = .error err →
        checkLoop readMeta first st (e :: rest) = .error err) := by
  refine ⟨?_, ?_, ?_⟩
  · intro exif hm hs
    exact checkFrame_missing_shutter hm hs
  · intro st' h
    obtain ⟨exif, apex, shown, iso, fn, mode, hm, hs, hshown, -, -, -, -, -, -,
      hexp, -⟩ := checkFrame_ok_elim h
    exact ⟨exif, apex, shown, hm, hs, hexp⟩
  · intro rest err h
    exact checkLoop_cons_error rest h

/-- Frame metadata fixtures for the `check()` witnesses. -/
def exifNoShutter : ExifData :=
  { attrs := [], shutterSpeedValue := none, exposureTimeShown := some (1/8),
    isoSpeed := some 100, fNumber := some 8, exposureMode := some "Manual",
    canonFocusMode := none }

def exifNoMode : ExifData :=
  { attrs := [], shutterSpeedValue := some 3, exposureTimeShown := some (1/8),
    isoSpeed := some 100, fNumber := some 8, exposureMode := none,
    canonFocusMode := none }

def exifAuto : ExifData :=
  { attrs := [], shutterSpeedValue := some 3, exposureTimeShown := some (1/8),
    isoSpeed := some 100, fNumber := some 8, exposureMode := some "Auto",
    canonFocusMode := none }

def readMetaFix : String → Option ExifData := fun s =>
  if s = "m" then some exifNoShutter
  else if s = "x" then some exifNoMode
  else if s = "y" then some exifAuto
  else none

/-- Witness for C6: a frame without the shutter-speed attribute makes the
frame check, and hence the series loop, fail. -/
theorem check_exposure_time_formula_witness :
    (readMetaFix "m" = some exifNoShutter ∧ exifNoShutter.shutterSpeedValue = none)
    ∧ checkFrame readMetaFix true (initState []) { filename := "m" } =
        .error (.missingField "m" "exposure time")
    ∧ checkLoop readMetaFix true (initState []) [{ filename := "m" }] =
        .error (.missingField "m" "exposure time") := by
  have h := check_exposure_time_formula readMetaFix true (initState []) { filename := "m" }
  have h1 := h.1 exifNoShutter rfl rfl
  exact ⟨⟨rfl, rfl⟩, h1, h.2.2 [] _ h1⟩

/-- C10: a frame lacking the exposure-mode attribute is fatal and aborts
the whole series, while a present but non-"Manual" mode only records a
warning and the frame check still succeeds. -/
theorem check_mode_absence_fatal (readMeta : String → Option ExifData)
    (first : Bool) (st : CheckState) (e : Exposure) :
    (∀ exif apex shown iso fn,
        readMeta e.filename = some exif →
        exif.shutterSpeedValue = some apex →
        exif.exposureTimeShown = some shown →
        exif.isoSpeed = some iso →
        exif.fNumber = some fn →
        (first = false → st.isoSpeed = iso ∧ st.aperture = fn) →
        exif.exposureMode = none →
        checkFrame readMeta first st e = .error (.missingField e.filename "exposure mode"))
    ∧ (∀ exif apex shown iso fn mode,
        readMeta e.filename = some exif →
        exif.shutterSpeedValue = some apex →
        exif.exposureTimeShown = some shown →
        exif.isoSpeed = some iso →
        exif.fNumber = some fn →
        (first = false → st.isoSpeed = iso ∧ st.aperture = fn) →
        exif.exposureMode = some mode →
        ∃ st', checkFrame readMeta first st e = .ok st'
          ∧ (mode ≠ "Manual" → ("not manual exposure: " ++ e.filename) ∈ st'.warnings))
    ∧ (∀ (rest : List Exposure) err, checkFrame readMeta first st e = .error err →
        checkLoop readMeta first st (e :: rest) = .error err) := by
  refine ⟨?_, ?_, ?_⟩
  · intro exif apex shown iso fn hm hs hshown hiso hfn hcons hmode
    exact checkFrame_missing_mode hm hs hshown hiso hfn
      (fun hf => (hcons hf).1) (fun hf => (hcons hf).2) hmode
  · intro exif apex shown iso fn mode hm hs hshown hiso hfn hcons hmode
    refine ⟨_, checkFrame_ok readMeta first st e exif apex shown iso fn mode
      hm hs hshown hiso hfn hmode (fun hf => (hcons hf).1) (fun hf => (hcons hf).2), ?_⟩
    intro hne
    exact mem_frameWarnings st e exif hne
  · intro rest err h
    exact checkLoop_cons_error rest h

/-- Witness for C10: a frame without the exposure-mode attribute fails the
series loop, while a frame in "Auto" mode passes with a warning. -/
theorem check_mode_absence_fatal_witness :
    (readMetaFix "x" = some exifNoMode ∧ exifNoMode.exposureMode = none)
    ∧ checkLoop readMetaFix true (initState []) [{ filename := "x" }] =
        .error (.missingField "x" "exposure mode")
    ∧ ∃ st', checkFrame readMetaFix true (initState []) { filename := "y" } = .ok st'
        ∧ ("not manual exposure: " ++ "y") ∈ st'.warnings := by
  have hx := check_mode_absence_fatal readMetaFix true (initState []) { filename := "x" }
  have hy := check_mode_absence_fatal readMetaFix true (initState []) { filename := "y" }
  have h1 := hx.1 exifNoMode 3 (1/8) 100 8 rfl rfl rfl rfl rfl
    (fun h => Bool.noConfusion h) rfl
  obtain ⟨st', hok, hwarn⟩ := hy.2.1 exifAuto 3 (1/8) 100 8 "Auto" rfl rfl rfl rfl rfl
    (fun h => Bool.noConfusion h) rfl
  exact ⟨⟨rfl, rfl⟩, hx.2.2 [] _ h1, st', hok, hwarn (by decide)⟩

/-! ## C9: `check()` on an empty exposure set -/

/-- Counterexample for C9 as stated: on a series with no exposures,
`check()` completes successfully (the source has no emptiness test: the
frame loop, the sort and the adjacent scan are all vacuous). -/
theorem check_empty_counterexample :
    ExposureSeries.check (fun _ => none) { exposures := [] } =
      .ok ({ exposures := [] }, []) := rfl

/-- C9 amended: `check()` succeeds on an empty exposure set for every
metadata reader, returning the series unchanged and no warnings; the
"non-empty before validation completes" invariant is not enforced. -/
theorem check_empty_succeeds (readMeta : String → Option ExifData)
    (es : ExposureSeries) (h : es.exposures = []) :
    es.check readMeta = .ok (es, []) := by
  obtain ⟨exps, md, w, ht, s⟩ := es
  simp only at h
  subst h
  rfl

/-- Witness for the amended C9 at a concrete empty series. -/
theorem check_empty_succeeds_witness :
    (ExposureSeries.exposures { exposures := [], metadata := [("k", "v")] } = [])
    ∧ ExposureSeries.check (fun _ => some exifAuto)
        { exposures := [], metadata := [("k", "v")] } =
        .ok ({ exposures := [], metadata := [("k", "v")] }, []) :=
  ⟨rfl, check_empty_succeeds (fun _ => some exifAuto)
    { exposures := [], metadata := [("k", "v")] } rfl⟩

/-! ## C8: file discovery in `add()` -/

lemma scanPlain_spec (fileExists : String → Bool) (fmt : FmtString) :
    ∀ (fuel k start : Nat), k < fuel →
      (∀ j, start ≤ j → j < start + k → fileExists (fmt.subst j) = true) →
      fileExists (fmt.subst (start + k)) = false →
      scanPlain fileExists fmt fuel start =
        (List.range' start k).map (fun i => { filename := fmt.subst i }) := by
  intro fuel
  induction fuel with
  | zero => intro k start hk; exact absurd hk (Nat.not_lt_zero k)
  | succ n ih =>
    intro k start hk hall hstop
    cases k with
    | zero =>
      unfold scanPlain
      rw [Nat.add_zero] at hstop
      rw [if_pos hstop]
      simp
    | succ k' =>
      have hex : fileExists (fmt.subst start) = true :=
        hall start (Nat.le_refl start) (by omega)
      unfold scanPlain
      rw [if_neg (by rw [hex]; exact Bool.noConfusion)]
      have hall' : ∀ j, start + 1 ≤ j → j < start + 1 + k' →
          fileExists (fmt.subst j) = true := by
        intro j h1 h2; exact hall j (by omega) (by omega)
      have hstop' : fileExists (fmt.subst (start + 1 + k')) = false := by
        have : start + 1 + k' = start + (k' + 1) := by omega
        rw [this]; exact hstop
      rw [ih k' (start + 1) (by omega) hall' hstop']
      have : List.range' start (k' + 1) = start :: List.range' (start + 1) k' := by
        simp [List.range']
      rw [this, List.map_cons]

lemma scanZero_eq_scanPlain (fileExists : String → Bool) (fmt : FmtString)
    (h : fmt.hasPercent = true) :
    ∀ fuel i, scanZero fileExists fmt fuel i = scanPlain fileExists fmt fuel i := by
  intro fuel
  induction fuel with
  | zero => intro i; rfl
  | succ n ih =>
    intro i
    unfold scanZero scanPlain
    by_cases hf : fileExists (fmt.subst i) = false
    · simp [hf]
    · simp [hf, h, ih]

lemma scanZero_single (fileExists : String → Bool) (fmt : FmtString)
    (hnp : fmt.hasPercent = false) (hex : fileExists (fmt.subst 0) = true) :
    ∀ fuel, 2 ≤ fuel →
      scanZero fileExists fmt fuel 0 = [{ filename := fmt.subst 0 }] := by
  intro fuel hfuel
  obtain ⟨f, rfl⟩ : ∃ f, fuel = f + 2 := ⟨fuel - 2, by omega⟩
  unfold scanZero
  rw [if_neg (by rw [hex]; exact Bool.noConfusion)]
  rw [if_neg (by rintro ⟨h01, -⟩; exact absurd h01 (by omega))]
  unfold scanZero
  rw [fmt.substConst hnp 1 0, if_neg (by rw [hex]; exact Bool.noConfusion)]
  rw [if_pos ⟨rfl, hnp⟩]

lemma scanZero_nil (fileExists : String → Bool) (fmt : FmtString)
    (hex : fileExists (fmt.subst 0) = false) :
    ∀ fuel, scanZero fileExists fmt fuel 0 = [] := by
  intro fuel
  cases fuel with
  | zero => rfl
  | succ n =>
    unfold scanZero
    rw [if_pos hex]

lemma add_exposures_of_empty {fileExists : String → Bool} {fmt : FmtString}
    {fuel : Nat} (es : ExposureSeries)
    (h : (scanZero fileExists fmt fuel 0).isEmpty = true) :
    (es.add fileExists fmt fuel).exposures =
      es.exposures ++ scanPlain fileExists fmt fuel 1 := by
  unfold ExposureSeries.add
  simp [h]

lemma add_exposures_of_nonempty {fileExists : String → Bool} {fmt : FmtString}
    {fuel : Nat} (es : ExposureSeries)
    (h : (scanZero fileExists fmt fuel 0).isEmpty = false) :
    (es.add fileExists fmt fuel).exposures =
      es.exposures ++ scanZero fileExists fmt fuel 0 := by
  unfold ExposureSeries.add
  simp [h]

/-- C8: `add()` appends one exposure per consecutive existing file starting
at index 0 and stops at the first missing file; with no placeholder and an
existing file it appends exactly one exposure; and when the zero-based scan
found nothing it rescans starting at index 1. -/
theorem add_discovery (fileExists : String → Bool) (fmt : FmtString)
    (fuel : Nat) (es : ExposureSeries) :
    (∀ n, fmt.hasPercent = true → 0 < n → n < fuel →
        (∀ i, i < n → fileExists (fmt.subst i) = true) →
        fileExists (fmt.subst n) = false →
        (es.add fileExists fmt fuel).exposures =
          es.exposures ++ (List.range n).map (fun i => { filename := fmt.subst i }))
    ∧ (fmt.hasPercent = false → fileExists (fmt.subst 0) = true → 2 ≤ fuel →
        (es.add fileExists fmt fuel).exposures =
          es.exposures ++ [{ filename := fmt.subst 0 }])
    ∧ (∀ n, fileExists (fmt.subst 0) = false → 1 ≤ n → n < fuel →
        (∀ i, 1 ≤ i → i < n → fileExists (fmt.subst i) = true) →
        fileExists (fmt.subst n) = false →
        (es.add fileExists fmt fuel).exposures =
          es.exposures ++
            (List.range' 1 (n - 1)).map (fun i => { filename := fmt.subst i })) := by
  refine ⟨?_, ?_, ?_⟩
  · intro n hp hn hfuel hall hstop
    have hz : scanZero fileExists fmt fuel 0 =
        (List.range' 0 n).map (fun i => { filename := fmt.subst i }) := by
      rw [scanZero_eq_scanPlain fileExists fmt hp]
      exact scanPlain_spec fileExists fmt fuel n 0 hfuel
        (fun j _ hj => hall j (by omega)) (by simpa using hstop)
    have hne : (scanZero fileExists fmt fuel 0).isEmpty = false := by
      rw [hz]
      cases n with
      | zero => omega
      | succ m => simp [List.range']
    rw [add_exposures_of_nonempty es hne, hz, List.range_eq_range' n]
  · intro hnp hex hfuel
    have hz := scanZero_single fileExists fmt hnp hex fuel hfuel
    have hne : (scanZero fileExists fmt fuel 0).isEmpty = false := by
      rw [hz]; rfl
    rw [add_exposures_of_nonempty es hne, hz]
  · intro n hex hn hfuel hall hstop
    have hz := scanZero_nil fileExists fmt hex fuel
    have hne : (scanZero fileExists fmt fuel 0).isEmpty = true := by
      rw [hz]; rfl
    have hp : scanPlain fileExists fmt fuel 1 =
        (List.range' 1 (n - 1)).map (fun i => { filename := fmt.subst i }) := by
      refine scanPlain_spec fileExists fmt fuel (n - 1) 1 (by omega)
        (fun j h1 h2 => hall j h1 (by omega)) ?_
      have : 1 + (n - 1) = n := by omega
      rw [this]; exact hstop
    rw [add_exposures_of_empty es hne, hp]

/-- A bracketed-template fixture: distinct names per index. -/
def fmtBracket : FmtString :=
  { subst := fun i => if i = 0 then "a0" else if i = 1 then "a1" else "a2",
    hasPercent := true,
    substConst := fun h => Bool.noConfusion h }

/-- A placeholder-free template fixture: one constant name. -/
def fmtSingle : FmtString :=
  { subst := fun _ => "solo", hasPercent := false,
    substConst := fun _ _ _ => rfl }

def filesFixture : String → Bool := fun s =>
  s = "a0" || s = "a1" || s = "solo"

/-- Witness for C8: the bracketed scan collects `a0, a1` and stops at the
missing `a2`; the placeholder-free scan appends exactly one exposure. -/
theorem add_discovery_witness :
    (fmtBracket.hasPercent = true ∧ filesFixture (fmtBracket.subst 2) = false)
    ∧ (ExposureSeries.add filesFixture fmtBracket 9 { exposures := [] }).exposures =
        [] ++ (List.range 2).map (fun i => { filename := fmtBracket.subst i })
    ∧ (ExposureSeries.add filesFixture fmtSingle 9 { exposures := [] }).exposures =
        [] ++ [{ filename := fmtSingle.subst 0 }] := by
  have h1 := (add_discovery filesFixture fmtBracket 9 { exposures := [] }).1 2
    rfl (by omega) (by omega) (by decide) (by decide)
  have h2 := (add_discovery filesFixture fmtSingle 9 { exposures := [] }).2.1
    rfl (by decide) (by omega)
  exact ⟨⟨rfl, by decide⟩, h1, h2⟩

/-! ## C1: post-sort strict ordering and duplicate detection -/

/-- Strict ordering on derived exposure time. -/
def expLT (a b : Exposure) : Prop := a.exposure < b.exposure

/-- Distinctness of derived exposure time (the complement of the
`adjacent_find` predicate). -/
def expNE (a b : Exposure) : Prop := a.exposure ≠ b.exposure

instance : IsTrans Exposure expLT := ⟨fun _ _ _ h h' => lt_trans h h'⟩

lemma expNE_symm : Symmetric expNE := fun _ _ h => Ne.symm h

lemma findAdjacentDup_cons_cons (a b : Exposure) (t : List Exposure) :
    findAdjacentDup (a :: b :: t) =
      if a.exposure = b.exposure then some a else findAdjacentDup (b :: t) := rfl

lemma findAdjacentDup_eq_none_iff :
    ∀ l : List Exposure, findAdjacentDup l = none ↔ l.Chain' expNE
  | [] => by simp [findAdjacentDup]
  | [a] => by simp [findAdjacentDup]
  | a :: b :: t => by
    rw [List.chain'_cons, ← findAdjacentDup_eq_none_iff (b :: t),
      findAdjacentDup_cons_cons]
    by_cases h : a.exposure = b.exposure
    · simp [h, expNE]
    · simp [h, expNE]

lemma chain'_lt_of_sorted_ne :
    ∀ l : List Exposure, List.Sorted expLE l → l.Chain' expNE → l.Chain' expLT
  | [] => fun _ _ => List.chain'_nil
  | [_] => fun _ _ => List.chain'_singleton _
  | a :: b :: t => fun hs hc => by
    rw [List.chain'_cons] at hc ⊢
    refine ⟨lt_of_le_of_ne ?_ hc.1, chain'_lt_of_sorted_ne (b :: t) hs.of_cons hc.2⟩
    exact List.rel_of_sorted_cons hs b (List.mem_cons_self b t)

/-- Inversion of a successful `check()`. -/
lemma check_ok_elim {readMeta : String → Option ExifData} {es : ExposureSeries}
    {out : ExposureSeries} {ws : List String}
    (h : es.check readMeta = .ok (out, ws)) :
    ∃ st, checkLoop readMeta true (initState es.metadata) es.exposures = .ok st
      ∧ findAdjacentDup (List.insertionSort expLE st.exposures) = none
      ∧ out.exposures = List.insertionSort expLE st.exposures := by
  unfold ExposureSeries.check at h
  cases hl : checkLoop readMeta true (initState es.metadata) es.exposures with
  | error err => rw [hl] at h; exact absurd h (by simp)
  | ok st =>
    rw [hl] at h
    dsimp only at h
    cases hd : findAdjacentDup (List.insertionSort expLE st.exposures) with
    | some e => rw [hd] at h; exact absurd h (by simp)
    | none =>
      rw [hd] at h
      simp only [Except.ok.injEq, Prod.mk.injEq] at h
      exact ⟨st, rfl, hd, by rw [← h.1]⟩

/-- `check()` fails with the duplicate error when the scan finds a pair. -/
lemma check_error_of_dup {readMeta : String → Option ExifData}
    {es : ExposureSeries} {st : CheckState} {e : Exposure}
    (hl : checkLoop readMeta true (initState es.metadata) es.exposures = .ok st)
    (hd : findAdjacentDup (List.insertionSort expLE st.exposures) = some e) :
    es.check readMeta = .error (.duplicateExposure e.exposure) := by
  unfold ExposureSeries.check
  rw [hl]
  dsimp only
  rw [hd]

/-- C1: after a successful `check()` the exposures are strictly increasing
by derived exposure time, and any two frames with equal derived exposure
time anywhere in the series (not only adjacent in discovery order) make
`check()` fail with the duplicate-exposure error. -/
theorem check_sorted_strict (readMeta : String → Option ExifData)
    (es : ExposureSeries) :
    (∀ out ws, es.check readMeta = .ok (out, ws) → out.exposures.Pairwise expLT)
    ∧ (∀ st, checkLoop readMeta true (initState es.metadata) es.exposures = .ok st →
        ¬ st.exposures.Pairwise expNE →
        ∃ t, es.check readMeta = .error (.duplicateExposure t)) := by
  constructor
  · intro out ws h
    obtain ⟨st, hl, hd, hout⟩ := check_ok_elim h
    rw [hout]
    have hs : List.Sorted expLE (List.insertionSort expLE st.exposures) :=
      List.sorted_insertionSort expLE st.exposures
    have hc := (findAdjacentDup_eq_none_iff _).mp hd
    exact List.chain'_iff_pairwise.mp (chain'_lt_of_sorted_ne _ hs hc)
  · intro st hl hdup
    cases hd : findAdjacentDup (List.insertionSort expLE st.exposures) with
    | some e => exact ⟨e.exposure, check_error_of_dup hl hd⟩
    | none =>
      exfalso
      have hc := (findAdjacentDup_eq_none_iff _).mp hd
      have hs := List.sorted_insertionSort expLE st.exposures
      have hpw : (List.insertionSort expLE st.exposures).Pairwise expNE :=
        (List.chain'_iff_pairwise.mp (chain'_lt_of_sorted_ne _ hs hc)).imp
          (fun h => ne_of_lt h)
      have hperm := List.perm_insertionSort expLE st.exposures
      exact hdup ((hperm.pairwise_iff (fun {_ _} h => expNE_symm h)).mp hpw)

/-- The frame named "y" used by the duplicate-exposure witness. -/
def eY : Exposure := { filename := "y" }

/-- The "y" frame as stamped by the frame check. -/
def eYdone : Exposure :=
  { filename := "y", exposure := (2 : ℚ) ^ (-(3 : ℤ)), shown_exposure := 1/8 }

/-- Loop state after checking the first "y" frame. -/
def stY1 : CheckState :=
  { isoSpeed := 100, aperture := 8, metadata := [],
    exposures := [eYdone],
    warnings := ["not manual exposure: y"] }

/-- Loop state after checking both "y" frames. -/
def stY2 : CheckState :=
  { isoSpeed := 100, aperture := 8, metadata := [],
    exposures := [eYdone, eYdone],
    warnings := ["not manual exposure: y", "not manual exposure: y"] }

/-- Witness for C1: two frames with the same metadata produce equal derived
exposure times, and `check()` rejects the series with the duplicate error. -/
theorem check_sorted_strict_witness :
    checkLoop readMetaFix true (initState []) [eY, eY] = .ok stY2
    ∧ ¬ stY2.exposures.Pairwise expNE
    ∧ ∃ t, ExposureSeries.check readMetaFix
        { exposures := [eY, eY] } = .error (.duplicateExposure t) := by
  have hf1 : checkFrame readMetaFix true (initState []) eY = .ok stY1 :=
    checkFrame_ok readMetaFix true (initState []) eY
      exifAuto 3 (1/8) 100 8 "Auto" rfl rfl rfl rfl rfl rfl
      (fun h => Bool.noConfusion h) (fun h => Bool.noConfusion h)
  have hf2 : checkFrame readMetaFix false stY1 eY = .ok stY2 :=
    checkFrame_ok readMetaFix false stY1 eY
      exifAuto 3 (1/8) 100 8 "Auto" rfl rfl rfl rfl rfl rfl
      (fun _ => rfl) (fun _ => rfl)
  have hloop : checkLoop readMetaFix true (initState []) [eY, eY] = .ok stY2 := by
    simp only [checkLoop, hf1, hf2]
  have hnp : ¬ stY2.exposures.Pairwise expNE := by
    intro hp
    have h1 := (List.pairwise_cons.mp hp).1
    exact h1 _ (List.mem_cons_self _ _) rfl
  exact ⟨hloop, hnp,
    (check_sorted_strict readMetaFix { exposures := [eY, eY] }).2 stY2 hloop hnp⟩

/-! ## C4: ISO / aperture consistency -/

/-- A frame whose metadata extraction fully succeeds with ISO `i0` and
f-number `a0`. -/
def GoodFrame (readMeta : String → Option ExifData) (i0 a0 : ℚ)
    (e : Exposure) : Prop :=
  ∃ exif apex shown mode,
    readMeta e.filename = some exif
    ∧ exif.shutterSpeedValue = some apex
    ∧ exif.exposureTimeShown = some shown
    ∧ exif.isoSpeed = some i0
    ∧ exif.fNumber = some a0
    ∧ exif.exposureMode = some mode

/-- The exposure time `check()` derives for a frame. -/
def derivedTime (readMeta : String → Option ExifData) (e : Exposure) : ℚ :=
  match readMeta e.filename with
  | some exif =>
    match exif.shutterSpeedValue with
    | some apex => (2 : ℚ) ^ (-apex)
    | none => 0
  | none => 0

/-- The displayed exposure time `check()` extracts for a frame. -/
def shownTime (readMeta : String → Option ExifData) (e : Exposure) : ℚ :=
  match readMeta e.filename with
  | some exif => exif.exposureTimeShown.getD 0
  | none => 0

/-- A frame after `check()` has stamped both exposure times. -/
def stampTimes (readMeta : String → Option ExifData) (e : Exposure) : Exposure :=
  { e with exposure := derivedTime readMeta e,
           shown_exposure := shownTime readMeta e }

lemma checkFrame_ok_of_good {readMeta : String → Option ExifData} {i0 a0 : ℚ}
    {e : Exposure} {st : CheckState} (first : Bool)
    (hg : GoodFrame readMeta i0 a0 e)
    (hst : first = false → st.isoSpeed = i0 ∧ st.aperture = a0) :
    ∃ st', checkFrame readMeta first st e = .ok st'
      ∧ st'.isoSpeed = i0 ∧ st'.aperture = a0
      ∧ st'.exposures = st.exposures ++ [stampTimes readMeta e] := by
  obtain ⟨exif, apex, shown, mode, hm, hs, hshown, hiso, hfn, hmode⟩ := hg
  refine ⟨_, checkFrame_ok readMeta first st e exif apex shown i0 a0 mode
    hm hs hshown hiso hfn hmode (fun h => (hst h).1) (fun h => (hst h).2), ?_, ?_, ?_⟩
  · cases first with
    | true => rfl
    | false => exact (hst rfl).1
  · cases first with
    | true => rfl
    | false => exact (hst rfl).2
  · have hd : derivedTime readMeta e = (2 : ℚ) ^ (-apex) := by
      simp [derivedTime, hm, hs]
    have hsh : shownTime readMeta e = shown := by
      simp [shownTime, hm, hshown]
    simp only [stampTimes, hd, hsh]

lemma checkLoop_nil (readMeta : String → Option ExifData) (first : Bool)
    (st : CheckState) : checkLoop readMeta first st [] = .ok st := rfl

lemma checkLoop_cons (readMeta : String → Option ExifData) (first : Bool)
    (st : CheckState) (e : Exposure) (rest : List Exposure) :
    checkLoop readMeta first st (e :: rest) =
      match checkFrame readMeta first st e with
      | .error err => .error err
      | .ok st' => checkLoop readMeta false st' rest := rfl

lemma checkLoop_ok_of_good (readMeta : String → Option ExifData) {i0 a0 : ℚ} :
    ∀ (frames : List Exposure) (st : CheckState),
      st.isoSpeed = i0 → st.aperture = a0 →
      (∀ e ∈ frames, GoodFrame readMeta i0 a0 e) →
      ∃ st', checkLoop readMeta false st frames = .ok st'
        ∧ st'.isoSpeed = i0 ∧ st'.aperture = a0
        ∧ st'.exposures = st.exposures ++ frames.map (stampTimes readMeta) := by
  intro frames
  induction frames with
  | nil => intro st hiso hap _; exact ⟨st, rfl, hiso, hap, by simp⟩
  | cons f rest ih =>
    intro st hiso hap hall
    obtain ⟨st1, hf, h1, h2, h3⟩ :=
      checkFrame_ok_of_good false
        (hall f (List.mem_cons_self f rest)) (fun _ => ⟨hiso, hap⟩)
    obtain ⟨st', hl, h1', h2', h3'⟩ :=
      ih st1 h1 h2 (fun e he => hall e (List.mem_cons_of_mem f he))
    refine ⟨st', ?_, h1', h2', ?_⟩
    · rw [checkLoop_cons, hf]
      exact hl
    · rw [h3', h3]
      simp

lemma checkLoop_append (readMeta : String → Option ExifData) :
    ∀ (xs ys : List Exposure) (st st' : CheckState) (first : Bool),
      checkLoop readMeta first st xs = .ok st' → xs ≠ [] →
      checkLoop readMeta first st (xs ++ ys) = checkLoop readMeta false st' ys := by
  intro xs
  induction xs with
  | nil => intro ys st st' first _ hne; exact absurd rfl hne
  | cons x xs' ih =>
    intro ys st st' first h _
    rw [List.cons_append, checkLoop_cons]
    rw [checkLoop_cons] at h
    cases hcf : checkFrame readMeta first st x with
    | error err => rw [hcf] at h; exact absurd h (by simp)
    | ok st1 =>
      rw [hcf] at h
      dsimp only at h ⊢
      cases hxs : xs' with
      | nil =>
        subst hxs
        rw [checkLoop_nil] at h
        simp only [Except.ok.injEq] at h
        subst h
        rw [List.nil_append]
      | cons u us =>
        subst hxs
        exact ih ys st1 st' false h (by simp)

/-- A loop error surfaces as the same `check()` error. -/
lemma check_error_of_loop {readMeta : String → Option ExifData}
    {es : ExposureSeries} {err : HDRError}
    (h : checkLoop readMeta true (initState es.metadata) es.exposures = .error err) :
    es.check readMeta = .error err := by
  unfold ExposureSeries.check
  rw [h]

/-- C4: `check()` records the first frame's ISO and f-number as the series
references; a subsequent frame differing in either fails with the
inconsistent-settings error at series level; and a series of fully
extractable frames with one ISO, one aperture and pairwise-distinct derived
exposure times passes validation. -/
theorem check_iso_aperture (readMeta : String → Option ExifData) :
    (∀ (st st' : CheckState) (e : Exposure),
        checkFrame readMeta true st e = .ok st' →
        ∃ exif, readMeta e.filename = some exif
          ∧ exif.isoSpeed = some st'.isoSpeed
          ∧ exif.fNumber = some st'.aperture)
    ∧ (∀ (es : ExposureSeries) (i0 a0 : ℚ) (pre : List Exposure) (e : Exposure)
          (post : List Exposure) (exif : ExifData) (apex : ℤ) (shown v : ℚ),
        es.exposures = pre ++ e :: post → pre ≠ [] →
        (∀ p ∈ pre, GoodFrame readMeta i0 a0 p) →
        readMeta e.filename = some exif →
        exif.shutterSpeedValue = some apex →
        exif.exposureTimeShown = some shown →
        exif.isoSpeed = some v → v ≠ i0 →
        es.check readMeta = .error (.inconsistentSettings e.filename "ISO speed"))
    ∧ (∀ (es : ExposureSeries) (i0 a0 : ℚ) (pre : List Exposure) (e : Exposure)
          (post : List Exposure) (exif : ExifData) (apex : ℤ) (shown w : ℚ),
        es.exposures = pre ++ e :: post → pre ≠ [] →
        (∀ p ∈ pre, GoodFrame readMeta i0 a0 p) →
        readMeta e.filename = some exif →
        exif.shutterSpeedValue = some apex →
        exif.exposureTimeShown = some shown →
        exif.isoSpeed = some i0 →
        exif.fNumber = some w → w ≠ a0 →
        es.check readMeta = .error (.inconsistentSettings e.filename "aperture"))
    ∧ (∀ (es : ExposureSeries) (i0 a0 : ℚ),
        (∀ e ∈ es.exposures, GoodFrame readMeta i0 a0 e) →
        es.exposures.Pairwise
          (fun a b => derivedTime readMeta a ≠ derivedTime readMeta b) →
        ∃ out ws, es.check readMeta = .ok (out, ws)) := by
  refine ⟨?_, ?_, ?_, ?_⟩
  · intro st st' e h
    obtain ⟨exif, apex, shown, iso, fn, mode, hm, -, -, hiso, hfn, -, hi, ha, -, -, -⟩ :=
      checkFrame_ok_elim h
    refine ⟨exif, hm, ?_, ?_⟩
    · rw [hi, if_pos rfl]; exact hiso
    · rw [ha, if_pos rfl]; exact hfn
  · intro es i0 a0 pre e post exif apex shown v hexp hpre hgood hm hs hshown hiso hv
    obtain ⟨p0, pre', rfl⟩ : ∃ p0 pre', pre = p0 :: pre' := by
      cases pre with
      | nil => exact absurd rfl hpre
      | cons p0 pre' => exact ⟨p0, pre', rfl⟩
    obtain ⟨st1, hf1, h1, h2, -⟩ :=
      checkFrame_ok_of_good true
        (hgood p0 (List.mem_cons_self p0 pre')) (fun h => Bool.noConfusion h)
    obtain ⟨st2, hl2, h1', h2', -⟩ :=
      checkLoop_ok_of_good readMeta pre' st1 h1 h2
        (fun p hp => hgood p (List.mem_cons_of_mem p0 hp))
    have hpreLoop : checkLoop readMeta true (initState es.metadata) (p0 :: pre') =
        .ok st2 := by
      rw [checkLoop_cons, hf1]
      exact hl2
    have hframe : checkFrame readMeta false st2 e =
        .error (.inconsistentSettings e.filename "ISO speed") :=
      checkFrame_iso_mismatch hm hs hshown hiso (by rw [h1']; exact Ne.symm hv)
    have hwhole : checkLoop readMeta true (initState es.metadata)
        ((p0 :: pre') ++ e :: post) =
        .error (.inconsistentSettings e.filename "ISO speed") := by
      rw [checkLoop_append readMeta (p0 :: pre') (e :: post) _ _ true hpreLoop
        (by simp)]
      exact checkLoop_cons_error post hframe
    exact check_error_of_loop (hexp ▸ hwhole)
  · intro es i0 a0 pre e post exif apex shown w hexp hpre hgood hm hs hshown hiso hfn hw
    obtain ⟨p0, pre', rfl⟩ : ∃ p0 pre', pre = p0 :: pre' := by
      cases pre with
      | nil => exact absurd rfl hpre
      | cons p0 pre' => exact ⟨p0, pre', rfl⟩
    obtain ⟨st1, hf1, h1, h2, -⟩ :=
      checkFrame_ok_of_good true
        (hgood p0 (List.mem_cons_self p0 pre')) (fun h => Bool.noConfusion h)
    obtain ⟨st2, hl2, h1', h2', -⟩ :=
      checkLoop_ok_of_good readMeta pre' st1 h1 h2
        (fun p hp => hgood p (List.mem_cons_of_mem p0 hp))
    have hpreLoop : checkLoop readMeta true (initState es.metadata) (p0 :: pre') =
        .ok st2 := by
      rw [checkLoop_cons, hf1]
      exact hl2
    have hframe : checkFrame readMeta false st2 e =
        .error (.inconsistentSettings e.filename "aperture") :=
      checkFrame_fn_mismatch hm hs hshown hiso h1' hfn
        (by rw [h2']; exact Ne.symm hw)
    have hwhole : checkLoop readMeta true (initState es.metadata)
        ((p0 :: pre') ++ e :: post) =
        .error (.inconsistentSettings e.filename "aperture") := by
      rw [checkLoop_append readMeta (p0 :: pre') (e :: post) _ _ true hpreLoop
        (by simp)]
      exact checkLoop_cons_error post hframe
    exact check_error_of_loop (hexp ▸ hwhole)
  · intro es i0 a0 hall hdist
    cases hexp : es.exposures with
    | nil =>
      obtain ⟨exps, md, wd, ht, s⟩ := es
      simp only at hexp
      subst hexp
      exact ⟨_, _, rfl⟩
    | cons f rest =>
      rw [hexp] at hall hdist
      obtain ⟨st1, hf1, h1, h2, h3⟩ :=
        checkFrame_ok_of_good true
          (hall f (List.mem_cons_self f rest)) (fun h => Bool.noConfusion h)
      obtain ⟨stF, hlF, -, -, h3'⟩ :=
        checkLoop_ok_of_good readMeta rest st1 h1 h2
          (fun e he => hall e (List.mem_cons_of_mem f he))
      have hloop : checkLoop readMeta true (initState es.metadata) es.exposures =
          .ok stF := by
        rw [hexp, checkLoop_cons, hf1]
        exact hlF
      have hexps : stF.exposures = (f :: rest).map (stampTimes readMeta) := by
        rw [h3', h3]
        simp [initState]
      have hpw : stF.exposures.Pairwise expNE := by
        rw [hexps]
        refine List.Pairwise.map (stampTimes readMeta) ?_ hdist
        intro a b hab
        exact hab
      have hchain : (List.insertionSort expLE stF.exposures).Chain' expNE :=
        List.Pairwise.chain'
          (((List.perm_insertionSort expLE stF.exposures).pairwise_iff
            (fun {_ _} h => expNE_symm h)).mpr hpw)
      have hdup : findAdjacentDup (List.insertionSort expLE stF.exposures) = none :=
        (findAdjacentDup_eq_none_iff _).mpr hchain
      refine ⟨{ es with exposures := List.insertionSort expLE stF.exposures, metadata := stF.metadata }, stF.warnings, ?_⟩
      unfold ExposureSeries.check
      rw [hloop]
      dsimp only
      rw [hdup]

/-- Fixtures for the ISO/aperture witness: `p` is the reference frame,
`q` differs in ISO, `r` matches settings but has a different shutter value. -/
def exifP : ExifData :=
  { attrs := [], shutterSpeedValue := some 0, exposureTimeShown := some 1,
    isoSpeed := some 100, fNumber := some 8, exposureMode := some "Manual",
    canonFocusMode := none }

def exifQ : ExifData :=
  { exifP with isoSpeed := some 200, shutterSpeedValue := some (-1) }

def exifR : ExifData :=
  { exifP with shutterSpeedValue := some (-1) }

def readMetaPQR : String → Option ExifData := fun s =>
  if s = "p" then some exifP
  else if s = "q" then some exifQ
  else if s = "r" then some exifR
  else none

/-- Witness for C4: a second frame with a different ISO fails with the
inconsistent-settings error, while a series with one ISO, one aperture and
distinct exposure times passes. -/
theorem check_iso_aperture_witness :
    ((200 : ℚ) ≠ 100)
    ∧ ExposureSeries.check readMetaPQR
        { exposures := [{ filename := "p" }, { filename := "q" }] } =
        .error (.inconsistentSettings "q" "ISO speed")
    ∧ ∃ out ws, ExposureSeries.check readMetaPQR
        { exposures := [{ filename := "p" }, { filename := "r" }] } =
        .ok (out, ws) := by
  have hgoodP : GoodFrame readMetaPQR 100 8 { filename := "p" } :=
    ⟨exifP, 0, 1, "Manual", rfl, rfl, rfl, rfl, rfl, rfl⟩
  have hgoodR : GoodFrame readMetaPQR 100 8 { filename := "r" } :=
    ⟨exifR, -1, 1, "Manual", rfl, rfl, rfl, rfl, rfl, rfl⟩
  have hpre : ∀ p ∈ [({ filename := "p" } : Exposure)],
      GoodFrame readMetaPQR 100 8 p := by
    intro p hp
    rw [List.mem_singleton] at hp
    subst hp
    exact hgoodP
  refine ⟨by norm_num, ?_, ?_⟩
  · exact (check_iso_aperture readMetaPQR).2.1
      { exposures := [{ filename := "p" }, { filename := "q" }] } 100 8
      [{ filename := "p" }] { filename := "q" } [] exifQ (-1) 1 200
      rfl (by simp) hpre rfl rfl rfl rfl (by norm_num)
  · refine (check_iso_aperture readMetaPQR).2.2.2
      { exposures := [{ filename := "p" }, { filename := "r" }] } 100 8 ?_ ?_
    · intro e he
      rcases List.mem_cons.mp he with rfl | he'
      · exact hgoodP
      · rw [List.mem_singleton] at he'
        subst he'
        exact hgoodR
    · refine List.pairwise_cons.mpr ⟨?_, List.pairwise_singleton _ _⟩
      intro b hb
      rw [List.mem_singleton] at hb
      subst hb
      show (2 : ℚ) ^ (-(0 : ℤ)) ≠ (2 : ℚ) ^ (-(-1 : ℤ))
      norm_num

/-! ## C3: the saturation order statistic -/

/-- Each decoded frame pairs its raw image with the exposure that now owns
the corresponding normalized buffer. -/
lemma loadLoop_forall2 {d : String → Option RawImage} :
    ∀ {exps : List Exposure} {results : List (RawImage × Exposure)},
      loadLoop d exps = .ok results →
      List.Forall₂ (fun e (p : RawImage × Exposure) =>
        d e.filename = some p.1
        ∧ p.2 = { e with image := some (normalize p.1) }) exps results := by
  intro exps
  induction exps with
  | nil =>
    intro results h
    simp only [loadLoop, Except.ok.injEq] at h
    subst h
    exact List.Forall₂.nil
  | cons e rest ih =>
    intro results h
    unfold loadLoop at h
    cases hf : loadFrame d e with
    | error err => rw [hf] at h; exact absurd h (by simp)
    | ok p =>
      rw [hf] at h
      dsimp only at h
      cases hl : loadLoop d rest with
      | error err => rw [hl] at h; exact absurd h (by simp)
      | ok ps =>
        rw [hl] at h
        simp only [Except.ok.injEq] at h
        subst h
        obtain ⟨raw, e'⟩ := p
        obtain ⟨h1, h2⟩ := loadFrame_ok_elim hf
        exact List.Forall₂.cons ⟨h1, h2⟩ (ih hl)

/-- The last elements of `Forall₂`-related lists are related. -/
lemma forall2_getLast {α β : Type} {R : α → β → Prop} :
    ∀ {l₁ : List α} {l₂ : List β}, List.Forall₂ R l₁ l₂ →
      ∀ b, l₂.getLast? = some b → ∃ a, l₁.getLast? = some a ∧ R a b := by
  intro l₁ l₂ h
  induction h with
  | nil => intro b hb; exact absurd hb (by simp)
  | @cons a b t₁ t₂ hab htail ih =>
    intro c hc
    cases t₂ with
    | nil =>
      have ht₁ : t₁ = [] := List.forall₂_nil_right_iff.mp htail
      subst ht₁
      simp only [List.getLast?_singleton, Option.some.injEq] at hc
      subst hc
      exact ⟨a, rfl, hab⟩
    | cons u us =>
      obtain ⟨v, vs, rfl⟩ : ∃ v vs, t₁ = v :: vs := by
        cases htail with
        | cons h1 h2 => exact ⟨_, _, rfl⟩
      rw [List.getLast?_cons_cons] at hc
      obtain ⟨x, hx, hr⟩ := ih c hc
      exact ⟨x, by rw [List.getLast?_cons_cons]; exact hx, hr⟩

/-- Inversion of a successful `load()`. -/
lemma load_ok_elim {d : String → Option RawImage} {es out : ExposureSeries}
    (h : es.load d = .ok out) :
    ∃ raw0 e0 rest, loadLoop d es.exposures = .ok ((raw0, e0) :: rest)
      ∧ out.exposures = ((raw0, e0) :: rest).map Prod.snd
      ∧ out.width = raw0.width ∧ out.height = raw0.height
      ∧ out.saturation = satOf
          (match (((raw0, e0) :: rest).map Prod.snd).getLast? with
            | some e => e.image.getD []
            | none => []) (raw0.width * raw0.height) := by
  unfold ExposureSeries.load at h
  cases hl : loadLoop d es.exposures with
  | error err => rw [hl] at h; exact absurd h (by simp)
  | ok results =>
    rw [hl] at h
    cases results with
    | nil => exact absurd h (by simp)
    | cons p rest =>
      obtain ⟨raw0, e0⟩ := p
      dsimp only at h
      simp only [Except.ok.injEq] at h
      subst h
      exact ⟨raw0, e0, rest, rfl, rfl, rfl, rfl, rfl⟩

/-- In an ascending-sorted list at most `k` elements are strictly below the
element at index `k`. -/
lemma countP_lt_getD_le :
    ∀ (l : List ℚ), l.Sorted (fun a b => a ≤ b) → ∀ k, k < l.length →
      l.countP (fun v => decide (v < l.getD k 0)) ≤ k := by
  intro l
  induction l with
  | nil => intro _ k hk; simp at hk
  | cons a t ih =>
    intro hs k hk
    cases k with
    | zero =>
      have hcount : (a :: t).countP (fun v => decide (v < (a :: t).getD 0 0)) = 0 := by
        rw [List.countP_eq_zero]
        intro v hv
        rcases List.mem_cons.mp hv with rfl | hv'
        · simp
        · have hle := List.rel_of_sorted_cons hs v hv'
          simpa using not_lt.mpr hle
      omega
    | succ k' =>
      have hg : (a :: t).getD (k' + 1) 0 = t.getD k' 0 := rfl
      have ht := ih hs.of_cons k' (by simpa using hk)
      rw [hg, List.countP_cons]
      by_cases hpa : decide (a < t.getD k' 0) = true
      · rw [if_pos hpa]; omega
      · rw [if_neg hpa]; omega

/-- In an ascending-sorted list more than `k` elements are at or below the
element at index `k`. -/
lemma getD_lt_countP_le :
    ∀ (l : List ℚ), l.Sorted (fun a b => a ≤ b) → ∀ k, k < l.length →
      k < l.countP (fun v => decide (v ≤ l.getD k 0)) := by
  intro l
  induction l with
  | nil => intro _ k hk; simp at hk
  | cons a t ih =>
    intro hs k hk
    cases k with
    | zero =>
      have hda : decide (a ≤ (a :: t).getD 0 0) = true := by simp
      rw [List.countP_cons, hda, if_pos rfl]
      omega
    | succ k' =>
      have hg : (a :: t).getD (k' + 1) 0 = t.getD k' 0 := rfl
      have hk' : k' < t.length := by simpa using hk
      have ht := ih hs.of_cons k' hk'
      have hmem : t.getD k' 0 ∈ t := by
        rw [List.getD_eq_getElem t 0 hk']
        exact List.getElem_mem hk'
      have hle : a ≤ t.getD k' 0 := List.rel_of_sorted_cons hs _ hmem
      rw [hg, List.countP_cons]
      have hda : decide (a ≤ t.getD k' 0) = true := by simpa using hle
      rw [hda, if_pos rfl]
      omega

/-- The order-statistic characterization of `satOf`: counting strictly
smaller and non-larger values brackets the rank `floor(npix * 0.999)`. -/
lemma satOf_rank (l : List ℚ) (npix : Nat) (h0 : 0 < npix)
    (hlen : npix ≤ l.length) :
    (l.take npix).countP (fun v => decide (v < satOf l npix)) ≤ npix * 999 / 1000
    ∧ npix * 999 / 1000 <
        (l.take npix).countP (fun v => decide (v ≤ satOf l npix)) := by
  have htlen : (l.take npix).length = npix := by simp [hlen]
  have hsort : (sortQ (l.take npix)).Sorted (fun a b => a ≤ b) :=
    List.sorted_insertionSort _ _
  have hperm : List.Perm (sortQ (l.take npix)) (l.take npix) :=
    List.perm_insertionSort _ _
  have hslen : (sortQ (l.take npix)).length = npix := by
    rw [hperm.length_eq, htlen]
  have hk : npix * 999 / 1000 < npix := Nat.div_lt_of_lt_mul (by omega)
  have hk' : npix * 999 / 1000 < (sortQ (l.take npix)).length := by omega
  have hc1 := countP_lt_getD_le (sortQ (l.take npix)) hsort _ hk'
  have hc2 := getD_lt_countP_le (sortQ (l.take npix)) hsort _ hk'
  constructor
  · calc (l.take npix).countP (fun v => decide (v < satOf l npix))
        = (sortQ (l.take npix)).countP (fun v => decide (v < satOf l npix)) :=
          (hperm.countP_eq _).symm
      _ ≤ npix * 999 / 1000 := hc1
  · calc npix * 999 / 1000
        < (sortQ (l.take npix)).countP (fun v => decide (v ≤ satOf l npix)) := hc2
      _ = (l.take npix).countP (fun v => decide (v ≤ satOf l npix)) :=
          hperm.countP_eq _

/-- C3: after `load()`, the saturation is the `floor(N*0.999)`-rank order
statistic (ascending, no interpolation) of the `N = width*height`
normalized pixels of the last exposure alone, computed on a copy: the
stored buffer still holds the untouched normalization. -/
theorem load_saturation (decodeFile : String → Option RawImage)
    (es out : ExposureSeries) (h : es.load decodeFile = .ok out) :
    ∃ eLast raw,
      es.exposures.getLast? = some eLast
      ∧ decodeFile eLast.filename = some raw
      ∧ out.exposures.getLast? = some { eLast with image := some (normalize raw) }
      ∧ out.saturation = satOf (normalize raw) (out.width * out.height)
      ∧ (0 < out.width * out.height →
          out.width * out.height ≤ (normalize raw).length →
          (((normalize raw).take (out.width * out.height)).countP
              (fun v => decide (v < out.saturation)) ≤
            out.width * out.height * 999 / 1000
          ∧ out.width * out.height * 999 / 1000 <
            ((normalize raw).take (out.width * out.height)).countP
              (fun v => decide (v ≤ out.saturation)))) := by
  obtain ⟨raw0, e0, rest, hl, hexps, hw, hh, hsat⟩ := load_ok_elim h
  have hforall := loadLoop_forall2 hl
  have hlast2 : ∃ pLast, ((raw0, e0) :: rest).getLast? = some pLast := by
    cases hq : ((raw0, e0) :: rest).getLast? with
    | none =>
      rw [List.getLast?_eq_none_iff] at hq
      exact absurd hq (by simp)
    | some p => exact ⟨p, rfl⟩
  obtain ⟨pLast, hpl⟩ := hlast2
  obtain ⟨eLast, hel, hdec, himg⟩ := forall2_getLast hforall pLast hpl
  have hlastOut : out.exposures.getLast? = some pLast.2 := by
    rw [hexps, List.getLast?_map, hpl]
    rfl
  have hlastImage : (match (((raw0, e0) :: rest).map Prod.snd).getLast? with
      | some e => e.image.getD []
      | none => []) = normalize pLast.1 := by
    rw [List.getLast?_map, hpl, Option.map_some']
    dsimp only
    rw [himg]
    rfl
  have hsatval : out.saturation =
      satOf (normalize pLast.1) (out.width * out.height) := by
    rw [hsat, hlastImage, hw, hh]
  refine ⟨eLast, pLast.1, hel, hdec, ?_, hsatval, ?_⟩
  · rw [hlastOut, himg]
  · intro h0 hlen
    rw [hsatval]
    exact satOf_rank (normalize pLast.1) (out.width * out.height) h0 hlen

/-- A decoder fixture for the saturation witness. -/
def decodeW : String → Option RawImage := fun s =>
  if s = "w" then some rawFixture else none

/-- The expected result of loading the single-frame `"w"` series. -/
def outW : ExposureSeries :=
  { exposures := [{ filename := "w", image := some (normalize rawFixture) }],
    metadata := [], width := 1, height := 1,
    saturation := satOf (normalize rawFixture) 1 }

/-- Witness for C3 on the one-frame fixture series. -/
theorem load_saturation_witness :
    ExposureSeries.load decodeW { exposures := [{ filename := "w" }] } = .ok outW
    ∧ ∃ eLast raw,
        (ExposureSeries.exposures
          { exposures := [{ filename := "w" }] }).getLast? = some eLast
        ∧ decodeW eLast.filename = some raw
        ∧ outW.exposures.getLast? = some { eLast with image := some (normalize raw) }
        ∧ outW.saturation = satOf (normalize raw) (outW.width * outW.height)
        ∧ (0 < outW.width * outW.height →
            outW.width * outW.height ≤ (normalize raw).length →
            (((normalize raw).take (outW.width * outW.height)).countP
                (fun v => decide (v < outW.saturation)) ≤
              outW.width * outW.height * 999 / 1000
            ∧ outW.width * outW.height * 999 / 1000 <
              ((normalize raw).take (outW.width * outW.height)).countP
                (fun v => decide (v ≤ outW.saturation)))) :=
  ⟨rfl, load_saturation decodeW { exposures := [{ filename := "w" }] } outW rfl⟩

end HDRMerge
